import Mathlib

/-!
Verification of the movie recommendation engine
(`src/recommendation_engine.py`).

The Python module is shallowly embedded below:

* `Movie` models one row of the pandas DataFrame handed to the engine
  (columns `title`, `genres`, `year`, `averageRating`, `numVotes`);
  `none` models a missing (`NaN`) cell.
* `create_content_string` models `_create_content_string` (lines 127-197),
  returning the list of whitespace-separated tokens of the produced string.
* `filteredData`, `vocabulary`, `dotP`, `cosineSim`, `similarityMatrix` and
  `create_similarity_matrix` model `create_similarity_matrix` (lines 80-125).
  Counting is exact (ℚ) and cosine similarity is real-valued; the float
  rounding of numpy is not modelled.  `CountVectorizer` is instantiated with
  `min_df=1` (no document-frequency filtering) and `tokenizer=str.split`; the
  `max_features=5000` performance cap is modelled as inactive, i.e. the
  vocabulary is the set of all observed tokens, which is the library's
  behaviour whenever the corpus has at most 5000 distinct tokens.
* `get_recommendations_impl` models the body of `get_recommendations`
  (lines 199-300); `get_recommendations` adds the blanket
  `except Exception: return []` handler (lines 302-304), and
  `find_similar_movies` models `MovieRecommender.find_similar_movies`
  (lines 66-78, minus the `lru_cache` memoisation, which does not change
  the value returned).  The fuzzywuzzy scorer (an external library) is a
  parameter `scorer`; `extractOne` models `process.extractOne`, which
  returns the first choice attaining the maximal score and `None` exactly
  when the choice list is empty.
-/

namespace MovieRec

/-- One row of the engine's DataFrame.  `none` models a missing/NaN cell. -/
structure Movie where
  title : String
  genres : Option String
  year : Option Int
  averageRating : Option ℚ
  numVotes : Option Int
  deriving DecidableEq, Repr

instance : Inhabited Movie := ⟨⟨"", none, none, none, none⟩⟩

/-- Accumulator-based splitter over the character list: the current
in-progress token is carried reversed in `acc`. -/
def splitTokens : List Char → List Char → List String
  | [], acc => if acc = [] then [] else [String.mk acc.reverse]
  | c :: cs, acc =>
    if c.isWhitespace then
      (if acc = [] then [] else [String.mk acc.reverse]) ++ splitTokens cs []
    else splitTokens cs (c :: acc)

/-- Python `str.split()` with no argument: split on whitespace runs,
dropping empty pieces. -/
def pySplit (s : String) : List String := splitTokens s.data []

/-- Python `str.lower()`. -/
def pyLower (t : String) : String := String.mk (t.data.map Char.toLower)

/-- Python `not title.strip()`: true iff the string is empty or
whitespace-only. -/
def pyStripEmpty (s : String) : Bool := s.data.all Char.isWhitespace

/-- Insert `x` into a descending-sorted list, after every element of
greater-or-equal key: together with `sortDesc` this is the unique stable
descending sort, the function computed by Python's
`list.sort(key=..., reverse=True)` (line 297) and used here also to model
the top-K term selection of `max_features`. -/
def insertDesc {α : Type} (key : α → ℚ) (x : α) : List α → List α
  | [] => [x]
  | y :: ys => if key y ≤ key x then x :: y :: ys else y :: insertDesc key x ys

/-- Stable descending sort by key. -/
def sortDesc {α : Type} (key : α → ℚ) : List α → List α
  | [] => []
  | x :: xs => insertDesc key x (sortDesc key xs)

/-- The `theme_mapping` dict of `_create_content_string` (lines 142-151);
a genre absent from the dict contributes nothing (line 153). -/
def theme_mapping : String → List String
  | "Horror" => ["suspense", "tension", "supernatural"]
  | "Sci-Fi" => ["space", "future", "technology"]
  | "Thriller" => ["suspense", "mystery", "tension"]
  | "Drama" => ["emotional", "character-driven", "relationship"]
  | "Action" => ["adventure", "excitement", "dynamic"]
  | "Mystery" => ["investigation", "suspense", "discovery"]
  | "Adventure" => ["journey", "exploration", "discovery"]
  | "Fantasy" => ["magical", "imagination", "supernatural"]
  | _ => []

/-- Year tokens (lines 157-164): `[year_Y, decade_D, era_D] * 2` with
`decade = (year // 10) * 10` (Python floor division). -/
def yearTokens (y : Int) : List String :=
  let decade := y.fdiv 10 * 10
  let l := ["year_" ++ toString y, "decade_" ++ toString decade,
            "era_" ++ toString decade]
  l ++ l

/-- Rating band tokens (lines 167-175). -/
def ratingTokens (r : ℚ) : List String :=
  if r ≥ 7.5 then List.replicate 3 "excellent_rating"
  else if r ≥ 6.5 then List.replicate 2 "good_rating"
  else ["average_rating"]

/-- Popularity band tokens (lines 178-185). -/
def voteTokens (v : Int) : List String :=
  if v > 100000 then List.replicate 2 "highly_popular"
  else if v > 50000 then ["popular"]
  else if v > 10000 then ["moderate_popularity"]
  else []

/-- `_create_content_string` (lines 127-197), as the list of tokens of the
returned space-joined string.  Every token is nonempty and whitespace-free,
so the string is empty iff this list is empty. -/
def create_content_string (m : Movie) : List String :=
  (match m.genres with
    | some g => (pySplit g).map pyLower
    | none => []) ++
  (match m.genres with
    | some g => (pySplit g).flatMap theme_mapping
    | none => []) ++
  (match m.year with
    | some y => yearTokens y
    | none => []) ++
  (match m.averageRating with
    | some r => ratingTokens r
    | none => []) ++
  (match m.numVotes with
    | some v => voteTokens v
    | none => [])

/-- Line 94: `data = data[data['content'].str.len() > 0]` — drop every row
whose content string is empty. -/
def filteredData (data : List Movie) : List Movie :=
  data.filter (fun m => create_content_string m ≠ [])

/-- All distinct tokens observed over the filtered corpus, before the
`max_features` truncation. -/
def vocabularyFull (data : List Movie) : List String :=
  ((filteredData data).map create_content_string).flatten.dedup

/-- Corpus-wide term frequency of token `t`: the column sum of the count
matrix, the quantity `CountVectorizer._limit_features` ranks by. -/
def corpusCount (data : List Movie) (t : String) : Nat :=
  (((filteredData data).map create_content_string).map (fun doc => doc.count t)).sum

/-- `max_features=5000` (line 107). -/
def max_features : Nat := 5000

/-- The vocabulary extracted by `CountVectorizer` (lines 102-111) with
`min_df=1` and `max_features=5000`: the 5000 most frequent distinct tokens
of the filtered corpus.  The library breaks frequency ties by an
unspecified (unstable argsort) order; the model fixes the stable order of
`vocabularyFull`, which matters to no claim — every statement below either
assumes the cap inactive or separates frequencies strictly at the cut. -/
def vocabulary (data : List Movie) : List String :=
  (sortDesc (fun t => (corpusCount data t : ℚ)) (vocabularyFull data)).take max_features

/-- Term frequency: how often token `t` occurs in document `doc`. -/
def tf (doc : List String) (t : String) : ℚ := (doc.count t : ℚ)

/-- Dot product of the count vectors of two documents over `vocab`. -/
def dotP (vocab : List String) (d1 d2 : List String) : ℚ :=
  (vocab.map (fun t => tf d1 t * tf d2 t)).sum

/-- `sklearn.metrics.pairwise.cosine_similarity` of two count vectors:
normalised dot product; a zero vector yields similarity 0 (in Lean,
division by zero gives 0, matching sklearn's handling of zero rows). -/
noncomputable def cosineSim (vocab d1 d2 : List String) : ℝ :=
  ((dotP vocab d1 d2 : ℚ) : ℝ) /
    (Real.sqrt ((dotP vocab d1 d1 : ℚ) : ℝ) * Real.sqrt ((dotP vocab d2 d2 : ℚ) : ℝ))

/-- Entry `(i, j)` of the similarity matrix built on line 119. -/
noncomputable def similarityMatrix (data : List Movie) (i j : Nat) : ℝ :=
  cosineSim (vocabulary data)
    (create_content_string ((filteredData data).getD i default))
    (create_content_string ((filteredData data).getD j default))

/-- The similarity matrix as a list of rows: `cosine_similarity` of an
`N × V` count matrix with itself is `N × N`. -/
noncomputable def similarityRows (data : List Movie) : List (List ℝ) :=
  (List.range (filteredData data).length).map (fun i =>
    (List.range (filteredData data).length).map (fun j => similarityMatrix data i j))

/-- `create_similarity_matrix` (lines 80-125): drop empty-content rows,
fail when no rows remain (line 97) or when no features were extracted
(line 114), otherwise return the filtered data with the cosine matrix. -/
noncomputable def create_similarity_matrix (data : List Movie) :
    Except String (List Movie × (Nat → Nat → ℝ)) :=
  if filteredData data = [] then
    Except.error "No valid movies found after processing"
  else if vocabulary data = [] then
    Except.error "No valid features extracted from movie content"
  else
    Except.ok (filteredData data, similarityMatrix data)

/-- One recommendation record appended on lines 283-290 (`list(current_genres)`
is kept as the set itself, Python's list conversion order being irrelevant to
every claim). -/
structure Recom where
  title : String
  year : Int
  genres : Finset String
  rating : ℚ
  similarity_score : ℚ
  idx : Nat
  deriving DecidableEq

/-- Mutable state of the candidate-scoring loop (lines 224-294).
`genre_counts` is the Python dict, kept as an insertion-ordered
association list. -/
structure LoopState where
  recommendations : List Recom
  seen_genres : Finset String
  genre_counts : List (String × Nat)
  seen_titles : Finset String
  candidates : List Recom
  deriving DecidableEq

/-- `genre_counts.get(g, 0)`. -/
def dictGet (d : List (String × Nat)) (k : String) : Nat :=
  match d.find? (fun p => p.1 = k) with
  | some p => p.2
  | none => 0

/-- `genre_counts[g] = genre_counts.get(g, 0) + 1`: update in place when the
key exists, append otherwise (Python dict insertion order). -/
def dictIncr (d : List (String × Nat)) (k : String) : List (String × Nat) :=
  if d.any (fun p => p.1 = k) then
    d.map (fun p => if p.1 = k then (p.1, p.2 + 1) else p)
  else d ++ [(k, 1)]

/-- `set(genres.split())` for a possibly missing genres cell
(lines 221 and 241). -/
def genreSet : Option String → Finset String
  | some g => (pySplit g).toFinset
  | none => ∅

/-- The candidate's distinct genre tokens, a deterministic enumeration of
`set(genres.split())` used to model the `for genre in current_genres` dict
update of lines 293-294; the iteration order over the Python set is
unspecified but does not affect any `genre_counts.get` value, the keys
being distinct. -/
def genreList : Option String → List String
  | some g => (pySplit g).dedup
  | none => []

/-- Line 262: `(rating - 5) * 0.04 if rating > 5 else 0`. -/
def rating_bonus (rating : ℚ) : ℚ :=
  if rating > 5 then (rating - 5) * 0.04 else 0

/-- Line 266: `min(0.15, votes / 1000000)`. -/
def popularity_bonus (votes : Int) : ℚ :=
  min 0.15 ((votes : ℚ) / 1000000)

/-- Line 271: `min(0.2, year_diff / 200)`. -/
def era_bonus (year_diff : Int) : ℚ :=
  min 0.2 ((year_diff : ℚ) / 200)

/-- Lines 248-294: score one candidate and extend the state — the
diversity bonus (lines 251-252), the genre-repetition penalty
(lines 255-258, summing `genre_counts.get(genre, 0) * 0.05` over the
candidate's genres, absent keys contributing 0), the rating, popularity
and era bonuses, the weighted combination (lines 274-281), the append to
`candidates` (lines 283-290) and the `genre_counts` update (lines 293-294). -/
def scoreCandidate (source_year : Int)
    (movie : Movie) (idx : Nat) (base_score : ℚ) (st : LoopState) : LoopState :=
  let current_genres := genreSet movie.genres
  let new_genres := current_genres \ st.seen_genres
  let diversity_bonus : ℚ := (new_genres.card : ℚ) * 0.15
  let genre_penalty : ℚ := ∑ g ∈ current_genres, (dictGet st.genre_counts g : ℚ) * 0.05
  let rating : ℚ := movie.averageRating.getD 0
  let votes : Int := movie.numVotes.getD 0
  let year : Int := movie.year.getD 2024
  let final_score : ℚ :=
    base_score * 0.5 + diversity_bonus * 0.2 + rating_bonus rating * 0.15 +
      popularity_bonus votes * 0.1 + era_bonus |year - source_year| * 0.05 -
      genre_penalty
  { st with
    candidates :=
      st.candidates ++ [⟨movie.title, year, current_genres, rating, final_score, idx⟩],
    genre_counts := (genreList movie.genres).foldl dictIncr st.genre_counts }

/-- The candidate loop of `get_recommendations` (lines 231-294): skip the
source index (line 232), fail like `iloc` on an out-of-range index
(line 235), skip titles in `seen_titles` (line 238, a set that is never
populated), skip genre-identical candidates once `len(recommendations)`
reaches `max_recommendations // 2` (lines 244-246), otherwise score the
candidate. -/
def scoreLoop (data : List Movie) (movie_idx : Nat) (source_genres : Finset String)
    (source_year : Int) (max_recommendations : Nat) :
    List (Nat × ℚ) → LoopState → Except String LoopState
  | [], st => Except.ok st
  | (idx, base_score) :: rest, st =>
    if idx = movie_idx then
      scoreLoop data movie_idx source_genres source_year max_recommendations rest st
    else
      match data.get? idx with
      | none => Except.error "single positional indexer is out-of-bounds"
      | some movie =>
        if movie.title ∈ st.seen_titles then
          scoreLoop data movie_idx source_genres source_year max_recommendations rest st
        else if st.recommendations.length ≥ max_recommendations / 2 ∧
            genreSet movie.genres = source_genres then
          scoreLoop data movie_idx source_genres source_year max_recommendations rest st
        else
          scoreLoop data movie_idx source_genres source_year max_recommendations rest
            (scoreCandidate source_year movie idx base_score st)

/-- Comparison loop for the genre-similarity guard: identical to
`scoreLoop` except that the lines 244-246 guard is absent, so no candidate
is ever skipped for having exactly the source's genre set. -/
def scoreLoopUnguarded (data : List Movie) (movie_idx : Nat)
    (source_genres : Finset String) (source_year : Int) :
    List (Nat × ℚ) → LoopState → Except String LoopState
  | [], st => Except.ok st
  | (idx, base_score) :: rest, st =>
    if idx = movie_idx then
      scoreLoopUnguarded data movie_idx source_genres source_year rest st
    else
      match data.get? idx with
      | none => Except.error "single positional indexer is out-of-bounds"
      | some movie =>
        if movie.title ∈ st.seen_titles then
          scoreLoopUnguarded data movie_idx source_genres source_year rest st
        else
          scoreLoopUnguarded data movie_idx source_genres source_year rest
            (scoreCandidate source_year movie idx base_score st)

/-- Comparison loop for the genre-similarity guard: identical to
`scoreLoop` except that the lines 244-246 guard always fires, skipping
every candidate whose genre set equals the source's. -/
def scoreLoopSkipEqual (data : List Movie) (movie_idx : Nat)
    (source_genres : Finset String) (source_year : Int) :
    List (Nat × ℚ) → LoopState → Except String LoopState
  | [], st => Except.ok st
  | (idx, base_score) :: rest, st =>
    if idx = movie_idx then
      scoreLoopSkipEqual data movie_idx source_genres source_year rest st
    else
      match data.get? idx with
      | none => Except.error "single positional indexer is out-of-bounds"
      | some movie =>
        if movie.title ∈ st.seen_titles then
          scoreLoopSkipEqual data movie_idx source_genres source_year rest st
        else if genreSet movie.genres = source_genres then
          scoreLoopSkipEqual data movie_idx source_genres source_year rest st
        else
          scoreLoopSkipEqual data movie_idx source_genres source_year rest
            (scoreCandidate source_year movie idx base_score st)

/-- The state on lines 224-227: every container starts empty. -/
def initState : LoopState := ⟨[], ∅, [], ∅, []⟩

/-- Lines 215-300 of `get_recommendations`, after title resolution: read
the source row (line 215) and its similarity row (line 218) — both
`iloc`-style lookups that raise on an out-of-range index — run the scoring
loop over `enumerate(similarity_matrix[movie_idx])`, sort the candidates
by descending final score (Python's sort is stable) and return the first
`max_recommendations` of them (lines 296-300). -/
def recommendCore (data : List Movie) (similarity_matrix : List (List ℚ))
    (movie_idx : Nat) (max_recommendations : Nat) : Except String (List Recom) :=
  match data.get? movie_idx with
  | none => Except.error "single positional indexer is out-of-bounds"
  | some source_movie =>
    match similarity_matrix.get? movie_idx with
    | none => Except.error "index out of range"
    | some row =>
      match scoreLoop data movie_idx (genreSet source_movie.genres)
          (source_movie.year.getD 2024) max_recommendations row.enum initState with
      | Except.error e => Except.error e
      | Except.ok st =>
        Except.ok ((sortDesc (fun r => r.similarity_score) st.candidates).take
          max_recommendations)

/-- Insertion-ordered key list of a Python dict built by successive
assignment: first occurrence fixes the position. -/
def pyKeys (l : List String) : List String :=
  l.foldl (fun acc t => if t ∈ acc then acc else acc ++ [t]) []

/-- `list(title_to_index.keys())` for the dict of line 205. -/
def titleKeys (data : List Movie) : List String :=
  pyKeys (data.map (fun m => m.title))

/-- `title_to_index[t]` for the dict of line 205: repeated assignment means
the LAST row with a given title wins. -/
def titleToIndex (data : List Movie) (t : String) : Nat :=
  data.enum.foldl (fun acc p => if p.2.title = t then p.1 else acc) 0

/-- `fuzzywuzzy.process.extractOne(query, choices)` for an abstract scorer:
`None` exactly on an empty choice list, otherwise the first choice
attaining the maximal score. -/
def extractOne (scorer : String → String → Nat) (query : String)
    (choices : List String) : Option (String × Nat) :=
  choices.foldl (fun best c =>
    match best with
    | none => some (c, scorer query c)
    | some (b, s) => if scorer query c > s then some (c, scorer query c) else some (b, s))
    none

/-- The body of `get_recommendations` (lines 199-300): reject an
empty/whitespace title with a `ValueError` (lines 202-203), resolve the
query fuzzily over the dict keys, return `[]` when there is no match or
the best confidence is below `min_similarity` (lines 208-211), otherwise
rank from the matched row's index. -/
def get_recommendations_impl (scorer : String → String → Nat) (title : String)
    (data : List Movie) (similarity_matrix : List (List ℚ))
    (min_similarity : Nat) (max_recommendations : Nat) : Except String (List Recom) :=
  if pyStripEmpty title then
    Except.error "Invalid title: must be a non-empty string"
  else
    match extractOne scorer title (titleKeys data) with
    | none => Except.ok []
    | some (matched_title, score) =>
      if score < min_similarity then Except.ok []
      else recommendCore data similarity_matrix (titleToIndex data matched_title)
        max_recommendations

/-- `get_recommendations` as the caller sees it: the blanket
`except Exception: return []` of lines 302-304 turns every internal error
into an empty result. -/
def get_recommendations (scorer : String → String → Nat) (title : String)
    (data : List Movie) (similarity_matrix : List (List ℚ))
    (min_similarity : Nat) (max_recommendations : Nat) : List Recom :=
  match get_recommendations_impl scorer title data similarity_matrix
      min_similarity max_recommendations with
  | Except.ok recs => recs
  | Except.error _ => []

/-- `MovieRecommender.find_similar_movies` (lines 66-78): delegate to
`get_recommendations` with the default `min_similarity=70`; its own
`except` handler returns `[]`, but `get_recommendations` already never
raises. -/
def find_similar_movies (scorer : String → String → Nat) (title : String)
    (data : List Movie) (similarity_matrix : List (List ℚ))
    (max_recommendations : Nat) : List Recom :=
  get_recommendations scorer title data similarity_matrix 70 max_recommendations

/-- A concrete fuzzy scorer for worked examples: 100 on an exact match,
0 otherwise. -/
def eqScorer (q c : String) : Nat := if q = c then 100 else 0

/-- Corpus with two distinct rows that share the title "A". -/
def dataDup : List Movie :=
  [⟨"A", some "Action", some 2000, none, none⟩,
   ⟨"A", some "Action", some 2000, none, none⟩,
   ⟨"B", some "Action", some 2000, none, none⟩]

/-- Pairwise similarities for `dataDup`. -/
def simDup : List (List ℚ) :=
  [[1, 0.8, 0.9], [0.8, 1, 0.8], [0.9, 0.8, 1]]

/-- Corpus of three single-genre movies, all `Action`. -/
def dataAct : List Movie :=
  [⟨"X", some "Action", some 2000, none, none⟩,
   ⟨"B", some "Action", some 2000, none, none⟩,
   ⟨"C", some "Action", some 2000, none, none⟩]

/-- Pairwise similarities for `dataAct`. -/
def simAct : List (List ℚ) :=
  [[1, 0.9, 0.8], [0.9, 1, 0.85], [0.8, 0.85, 1]]

/-- A one-movie corpus. -/
def dataOne : List Movie := [⟨"B", some "Action", some 2000, none, none⟩]

/-- A one-movie corpus whose row has only genre and year cells. -/
def dataAlpha : List Movie := [⟨"Alpha", some "Action Drama", some 2020, none, none⟩]

/-- The i-th synthetic genre token: the string of `i + 1` letters `a`. -/
def tok (i : Nat) : String := ⟨List.replicate (i + 1) 'a'⟩

/-- 5000 pairwise distinct synthetic tokens, one per length. -/
def capTokens : List String := (List.range 5000).map tok

/-- Join character-level tokens with single spaces. -/
def sepJoin : List (List Char) → List Char
  | [] => []
  | [cs] => cs
  | cs :: css => cs ++ ' ' :: sepJoin css

/-- The character list of all 5000 synthetic tokens, space-separated. -/
def bigChars : List Char := sepJoin (capTokens.map String.data)

/-- A genres cell holding all 5000 synthetic tokens, space-separated. -/
def bigGenres : String := ⟨bigChars⟩

/-- A movie whose generated content is exactly the 5000 synthetic tokens. -/
def movieBig : Movie := ⟨"Big", some bigGenres, none, none, none⟩

/-- A movie whose generated content is the single token "zzz". -/
def movieZ : Movie := ⟨"Z", some "zzz", none, none, none⟩

/-- A corpus whose filtered rows carry 5001 distinct tokens: each synthetic
token occurs twice (once per copy of `movieBig`) while "zzz" occurs once,
so the `max_features = 5000` cut drops exactly "zzz" — whatever the
frequency tie-breaking, since the frequencies at the cut are strict. -/
def bigData : List Movie := [movieBig, movieBig, movieZ]

/-! Lemmas about the stable descending sort. -/

theorem mem_insertDesc {α : Type} (key : α → ℚ) (x a : α) (l : List α) :
    a ∈ insertDesc key x l ↔ a = x ∨ a ∈ l := by
  induction l with
  | nil => simp [insertDesc]
  | cons y ys ih =>
    by_cases h : key y ≤ key x
    · simp [insertDesc, h, or_assoc, or_left_comm]
    · simp only [insertDesc, if_neg h, List.mem_cons, ih]
      tauto

theorem insertDesc_perm {α : Type} (key : α → ℚ) (x : α) (l : List α) :
    List.Perm (insertDesc key x l) (x :: l) := by
  induction l with
  | nil => simp [insertDesc]
  | cons y ys ih =>
    by_cases h : key y ≤ key x
    · simp [insertDesc, h]
    · rw [insertDesc, if_neg h]
      exact (ih.cons y).trans (List.Perm.swap x y ys)

theorem sortDesc_perm {α : Type} (key : α → ℚ) (l : List α) :
    List.Perm (sortDesc key l) l := by
  induction l with
  | nil => simp [sortDesc]
  | cons x xs ih =>
    exact (insertDesc_perm key x (sortDesc key xs)).trans (ih.cons x)

theorem length_sortDesc {α : Type} (key : α → ℚ) (l : List α) :
    (sortDesc key l).length = l.length :=
  (sortDesc_perm key l).length_eq

theorem insertDesc_sorted {α : Type} (key : α → ℚ) (x : α) (l : List α)
    (hl : l.Pairwise (fun a b => key b ≤ key a)) :
    (insertDesc key x l).Pairwise (fun a b => key b ≤ key a) := by
  induction l with
  | nil => simp [insertDesc]
  | cons y ys ih =>
    rcases List.pairwise_cons.mp hl with ⟨hy, hys⟩
    by_cases h : key y ≤ key x
    · rw [insertDesc, if_pos h]
      refine List.Pairwise.cons ?_ hl
      intro z hz
      rcases List.mem_cons.mp hz with rfl | hz
      · exact h
      · exact (hy z hz).trans h
    · rw [insertDesc, if_neg h]
      refine List.Pairwise.cons ?_ (ih hys)
      intro z hz
      rcases (mem_insertDesc key x z ys).mp hz with rfl | hz
      · exact le_of_not_le h
      · exact hy z hz

theorem sortDesc_sorted {α : Type} (key : α → ℚ) (l : List α) :
    (sortDesc key l).Pairwise (fun a b => key b ≤ key a) := by
  induction l with
  | nil => simp [sortDesc]
  | cons x xs ih => exact insertDesc_sorted key x (sortDesc key xs) ih

theorem insertDesc_stable {α : Type} (key : α → ℚ) (R : α → α → Prop) (x : α)
    (l : List α) (hl : l.Pairwise (fun a b => key b ≤ key a))
    (hQ : (x :: l).Pairwise (fun a b => key a = key b → R a b)) :
    (insertDesc key x l).Pairwise (fun a b => key a = key b → R a b) := by
  induction l with
  | nil => simpa [insertDesc] using hQ
  | cons y ys ih =>
    rcases List.pairwise_cons.mp hQ with ⟨hxall, hQtail⟩
    rcases List.pairwise_cons.mp hQtail with ⟨hyall, hQys⟩
    rcases List.pairwise_cons.mp hl with ⟨hy, hys⟩
    by_cases h : key y ≤ key x
    · rw [insertDesc, if_pos h]
      exact hQ
    · rw [insertDesc, if_neg h]
      refine List.Pairwise.cons ?_ (ih hys ?_)
      · intro z hz
        rcases (mem_insertDesc key x z ys).mp hz with rfl | hz
        · exact fun hkey => absurd hkey.le h
        · exact hyall z hz
      · exact List.Pairwise.cons (fun z hz => hxall z (List.mem_cons_of_mem y hz)) hQys

theorem sortDesc_stable {α : Type} (key : α → ℚ) (R : α → α → Prop) (l : List α)
    (hQ : l.Pairwise (fun a b => key a = key b → R a b)) :
    (sortDesc key l).Pairwise (fun a b => key a = key b → R a b) := by
  induction l with
  | nil => simp [sortDesc]
  | cons x xs ih =>
    rcases List.pairwise_cons.mp hQ with ⟨hxall, hxs⟩
    rw [sortDesc]
    refine insertDesc_stable key R x (sortDesc key xs) (sortDesc_sorted key xs) ?_
    exact List.Pairwise.cons
      (fun z hz => hxall z ((sortDesc_perm key xs).mem_iff.mp hz)) (ih hxs)

/-! Lemmas about the candidate-scoring loop. -/

theorem scoreCandidate_candidates (sy : Int) (movie : Movie) (idx : Nat)
    (base : ℚ) (st : LoopState) :
    ∃ c : Recom, (scoreCandidate sy movie idx base st).candidates =
      st.candidates ++ [c] ∧ c.idx = idx ∧ c.title = movie.title :=
  ⟨_, rfl, rfl, rfl⟩

theorem scoreCandidate_fixed (sy : Int) (movie : Movie) (idx : Nat)
    (base : ℚ) (st : LoopState) :
    (scoreCandidate sy movie idx base st).recommendations = st.recommendations ∧
      (scoreCandidate sy movie idx base st).seen_genres = st.seen_genres ∧
      (scoreCandidate sy movie idx base st).seen_titles = st.seen_titles :=
  ⟨rfl, rfl, rfl⟩

theorem scoreLoop_fixed (data : List Movie) (mi : Nat) (sg : Finset String)
    (sy : Int) (mr : Nat) :
    ∀ (pairs : List (Nat × ℚ)) (st st2 : LoopState),
      scoreLoop data mi sg sy mr pairs st = Except.ok st2 →
      st2.recommendations = st.recommendations ∧ st2.seen_genres = st.seen_genres ∧
        st2.seen_titles = st.seen_titles := by
  intro pairs
  induction pairs with
  | nil =>
    intro st st2 h
    simp only [scoreLoop, Except.ok.injEq] at h
    subst h
    exact ⟨rfl, rfl, rfl⟩
  | cons p rest ih =>
    intro st st2 h
    obtain ⟨idx, base⟩ := p
    simp only [scoreLoop] at h
    by_cases h1 : idx = mi
    · rw [if_pos h1] at h
      exact ih st st2 h
    · rw [if_neg h1] at h
      cases hg : data.get? idx with
      | none => rw [hg] at h; exact absurd h (by simp)
      | some movie =>
        simp only [hg] at h
        by_cases h2 : movie.title ∈ st.seen_titles
        · rw [if_pos h2] at h
          exact ih st st2 h
        · rw [if_neg h2] at h
          by_cases h3 : st.recommendations.length ≥ mr / 2 ∧ genreSet movie.genres = sg
          · rw [if_pos h3] at h
            exact ih st st2 h
          · rw [if_neg h3] at h
            have hrec := ih _ st2 h
            rcases scoreCandidate_fixed sy movie idx base st with ⟨e1, e2, e3⟩
            exact ⟨hrec.1.trans e1, hrec.2.1.trans e2, hrec.2.2.trans e3⟩

theorem scoreLoop_candidates_ne (data : List Movie) (mi : Nat) (sg : Finset String)
    (sy : Int) (mr : Nat) :
    ∀ (pairs : List (Nat × ℚ)) (st st2 : LoopState),
      scoreLoop data mi sg sy mr pairs st = Except.ok st2 →
      (∀ c ∈ st.candidates, c.idx ≠ mi) →
      ∀ c ∈ st2.candidates, c.idx ≠ mi := by
  intro pairs
  induction pairs with
  | nil =>
    intro st st2 h hc
    simp only [scoreLoop, Except.ok.injEq] at h
    subst h
    exact hc
  | cons p rest ih =>
    intro st st2 h hc
    obtain ⟨idx, base⟩ := p
    simp only [scoreLoop] at h
    by_cases h1 : idx = mi
    · rw [if_pos h1] at h
      exact ih st st2 h hc
    · rw [if_neg h1] at h
      cases hg : data.get? idx with
      | none => rw [hg] at h; exact absurd h (by simp)
      | some movie =>
        simp only [hg] at h
        by_cases h2 : movie.title ∈ st.seen_titles
        · rw [if_pos h2] at h
          exact ih st st2 h hc
        · rw [if_neg h2] at h
          by_cases h3 : st.recommendations.length ≥ mr / 2 ∧ genreSet movie.genres = sg
          · rw [if_pos h3] at h
            exact ih st st2 h hc
          · rw [if_neg h3] at h
            refine ih _ st2 h ?_
            rcases scoreCandidate_candidates sy movie idx base st with ⟨c, hc2, hidx, _⟩
            intro d hd
            rw [hc2, List.mem_append] at hd
            rcases hd with hd | hd
            · exact hc d hd
            · rw [List.mem_singleton.mp hd, hidx]
              exact h1

theorem scoreLoop_candidates_increasing (data : List Movie) (mi : Nat)
    (sg : Finset String) (sy : Int) (mr : Nat) :
    ∀ (row : List ℚ) (n : Nat) (st st2 : LoopState),
      scoreLoop data mi sg sy mr (List.enumFrom n row) st = Except.ok st2 →
      st.candidates.Pairwise (fun a b => a.idx < b.idx) →
      (∀ c ∈ st.candidates, c.idx < n) →
      st2.candidates.Pairwise (fun a b => a.idx < b.idx) ∧
        ∀ c ∈ st2.candidates, c.idx < n + row.length := by
  intro row
  induction row with
  | nil =>
    intro n st st2 h hpw hbd
    simp only [List.enumFrom, scoreLoop, Except.ok.injEq] at h
    subst h
    exact ⟨hpw, by simpa using hbd⟩
  | cons q qs ih =>
    intro n st st2 h hpw hbd
    simp only [List.enumFrom] at h
    simp only [scoreLoop] at h
    have hlen : n + 1 + qs.length = n + (q :: qs).length := by
      simp [List.length_cons]
      omega
    by_cases h1 : n = mi
    · rw [if_pos h1] at h
      have := ih (n + 1) st st2 h hpw (fun c hc => Nat.lt_succ_of_lt (hbd c hc))
      exact ⟨this.1, fun c hc => hlen ▸ this.2 c hc⟩
    · rw [if_neg h1] at h
      cases hg : data.get? n with
      | none => rw [hg] at h; exact absurd h (by simp)
      | some movie =>
        simp only [hg] at h
        by_cases h2 : movie.title ∈ st.seen_titles
        · rw [if_pos h2] at h
          have := ih (n + 1) st st2 h hpw (fun c hc => Nat.lt_succ_of_lt (hbd c hc))
          exact ⟨this.1, fun c hc => hlen ▸ this.2 c hc⟩
        · rw [if_neg h2] at h
          by_cases h3 : st.recommendations.length ≥ mr / 2 ∧ genreSet movie.genres = sg
          · rw [if_pos h3] at h
            have := ih (n + 1) st st2 h hpw (fun c hc => Nat.lt_succ_of_lt (hbd c hc))
            exact ⟨this.1, fun c hc => hlen ▸ this.2 c hc⟩
          · rw [if_neg h3] at h
            rcases scoreCandidate_candidates sy movie n q st with ⟨c, hc2, hidx, _⟩
            have hpw2 : (scoreCandidate sy movie n q st).candidates.Pairwise
                (fun a b => a.idx < b.idx) := by
              rw [hc2, List.pairwise_append]
              refine ⟨hpw, by simp, ?_⟩
              intro a ha b hb
              rw [List.mem_singleton.mp hb, hidx]
              exact hbd a ha
            have hbd2 : ∀ d ∈ (scoreCandidate sy movie n q st).candidates,
                d.idx < n + 1 := by
              intro d hd
              rw [hc2, List.mem_append] at hd
              rcases hd with hd | hd
              · exact Nat.lt_succ_of_lt (hbd d hd)
              · rw [List.mem_singleton.mp hd, hidx]
                exact Nat.lt_succ_self n
            have := ih (n + 1) _ st2 h hpw2 hbd2
            exact ⟨this.1, fun c hc => hlen ▸ this.2 c hc⟩

theorem scoreLoop_eq_unguarded (data : List Movie) (mi : Nat) (sg : Finset String)
    (sy : Int) (mr : Nat) (h2mr : 2 ≤ mr) :
    ∀ (pairs : List (Nat × ℚ)) (st : LoopState), st.recommendations = [] →
      scoreLoop data mi sg sy mr pairs st = scoreLoopUnguarded data mi sg sy pairs st := by
  intro pairs
  induction pairs with
  | nil =>
    intro st hst
    simp [scoreLoop, scoreLoopUnguarded]
  | cons p rest ih =>
    intro st hst
    obtain ⟨idx, base⟩ := p
    simp only [scoreLoop, scoreLoopUnguarded]
    by_cases h1 : idx = mi
    · rw [if_pos h1, if_pos h1]
      exact ih st hst
    · rw [if_neg h1, if_neg h1]
      cases hg : data.get? idx with
      | none => simp
      | some movie =>
        simp only
        by_cases hti : movie.title ∈ st.seen_titles
        · rw [if_pos hti, if_pos hti]
          exact ih st hst
        · rw [if_neg hti, if_neg hti]
          have hguard : ¬(st.recommendations.length ≥ mr / 2 ∧
              genreSet movie.genres = sg) := by
            rw [hst]
            intro hcon
            have : mr / 2 = 0 := Nat.le_zero.mp (by simpa using hcon.1)
            omega
          rw [if_neg hguard]
          exact ih _ (hst ▸ (scoreCandidate_fixed sy movie idx base st).1)

theorem scoreLoop_eq_skipEqual (data : List Movie) (mi : Nat) (sg : Finset String)
    (sy : Int) (mr : Nat) (hmr : mr ≤ 1) :
    ∀ (pairs : List (Nat × ℚ)) (st : LoopState), st.recommendations = [] →
      scoreLoop data mi sg sy mr pairs st = scoreLoopSkipEqual data mi sg sy pairs st := by
  intro pairs
  induction pairs with
  | nil =>
    intro st hst
    simp [scoreLoop, scoreLoopSkipEqual]
  | cons p rest ih =>
    intro st hst
    obtain ⟨idx, base⟩ := p
    simp only [scoreLoop, scoreLoopSkipEqual]
    by_cases h1 : idx = mi
    · rw [if_pos h1, if_pos h1]
      exact ih st hst
    · rw [if_neg h1, if_neg h1]
      cases hg : data.get? idx with
      | none => simp
      | some movie =>
        simp only
        by_cases hti : movie.title ∈ st.seen_titles
        · rw [if_pos hti, if_pos hti]
          exact ih st hst
        · rw [if_neg hti, if_neg hti]
          have hlen : st.recommendations.length ≥ mr / 2 := by
            rw [hst]
            simp
            omega
          by_cases hgen : genreSet movie.genres = sg
          · rw [if_pos ⟨hlen, hgen⟩, if_pos hgen]
            exact ih st hst
          · rw [if_neg (fun hcon => hgen hcon.2), if_neg hgen]
            exact ih _ (hst ▸ (scoreCandidate_fixed sy movie idx base st).1)

/-! Lemmas about the count-vector dot products and cosine similarity. -/

theorem sum_toFinset_eq (f : String → ℚ) :
    ∀ {l : List String}, l.Nodup → l.toFinset.sum f = (l.map f).sum
  | [], _ => by simp
  | a :: l, h => by
    rcases List.nodup_cons.mp h with ⟨ha, hl⟩
    rw [List.toFinset_cons, Finset.sum_insert (by simpa using ha), List.map_cons,
      List.sum_cons, sum_toFinset_eq f hl]

theorem tf_nonneg (doc : List String) (t : String) : 0 ≤ tf doc t := by
  rw [tf]
  positivity

theorem dotP_comm (vocab d1 d2 : List String) :
    dotP vocab d1 d2 = dotP vocab d2 d1 := by
  unfold dotP
  congr 1
  exact List.map_congr_left (fun t _ => mul_comm _ _)

theorem dotP_nonneg (vocab d1 d2 : List String) : 0 ≤ dotP vocab d1 d2 := by
  refine List.sum_nonneg ?_
  intro x hx
  rcases List.mem_map.mp hx with ⟨t, _, rfl⟩
  exact mul_nonneg (tf_nonneg d1 t) (tf_nonneg d2 t)

theorem dotP_self_pos (vocab d : List String) (t : String) (htv : t ∈ vocab)
    (htd : t ∈ d) : 0 < dotP vocab d d := by
  have hcount : 0 < tf d t := by
    rw [tf]
    exact_mod_cast List.count_pos_iff.mpr htd
  have hle : tf d t * tf d t ≤ dotP vocab d d := by
    refine List.single_le_sum ?_ _ (List.mem_map_of_mem _ htv)
    intro x hx
    rcases List.mem_map.mp hx with ⟨u, _, rfl⟩
    exact mul_nonneg (tf_nonneg d u) (tf_nonneg d u)
  exact lt_of_lt_of_le (mul_pos hcount hcount) hle

theorem dotP_sq_le (vocab d1 d2 : List String) (hn : vocab.Nodup) :
    dotP vocab d1 d2 ^ 2 ≤ dotP vocab d1 d1 * dotP vocab d2 d2 := by
  have h1 : ∀ da db : List String,
      dotP vocab da db = ∑ t ∈ vocab.toFinset, tf da t * tf db t := by
    intro da db
    rw [dotP, ← sum_toFinset_eq _ hn]
  rw [h1, h1, h1]
  calc (∑ t ∈ vocab.toFinset, tf d1 t * tf d2 t) ^ 2
      ≤ (∑ t ∈ vocab.toFinset, tf d1 t ^ 2) * ∑ t ∈ vocab.toFinset, tf d2 t ^ 2 :=
        Finset.sum_mul_sq_le_sq_mul_sq vocab.toFinset (tf d1) (tf d2)
    _ = (∑ t ∈ vocab.toFinset, tf d1 t * tf d1 t) * ∑ t ∈ vocab.toFinset, tf d2 t * tf d2 t := by
        simp only [pow_two]

theorem cosineSim_comm (vocab d1 d2 : List String) :
    cosineSim vocab d1 d2 = cosineSim vocab d2 d1 := by
  unfold cosineSim
  rw [dotP_comm vocab d1 d2, mul_comm]

theorem cosineSim_self (vocab d : List String) (h : 0 < dotP vocab d d) :
    cosineSim vocab d d = 1 := by
  unfold cosineSim
  have hpos : (0 : ℝ) < ((dotP vocab d d : ℚ) : ℝ) := by exact_mod_cast h
  rw [Real.mul_self_sqrt hpos.le]
  exact div_self hpos.ne'

theorem cosineSim_nonneg (vocab d1 d2 : List String) :
    0 ≤ cosineSim vocab d1 d2 := by
  unfold cosineSim
  refine div_nonneg ?_ (mul_nonneg (Real.sqrt_nonneg _) (Real.sqrt_nonneg _))
  exact_mod_cast dotP_nonneg vocab d1 d2

theorem cosineSim_le_one (vocab d1 d2 : List String) (hn : vocab.Nodup)
    (h1 : 0 < dotP vocab d1 d1) (h2 : 0 < dotP vocab d2 d2) :
    cosineSim vocab d1 d2 ≤ 1 := by
  unfold cosineSim
  have h1r : (0 : ℝ) < ((dotP vocab d1 d1 : ℚ) : ℝ) := by exact_mod_cast h1
  have h2r : (0 : ℝ) < ((dotP vocab d2 d2 : ℚ) : ℝ) := by exact_mod_cast h2
  rw [div_le_one (mul_pos (Real.sqrt_pos.mpr h1r) (Real.sqrt_pos.mpr h2r)),
    ← Real.sqrt_mul h1r.le]
  refine (Real.le_sqrt ?_ (mul_nonneg h1r.le h2r.le)).mpr ?_
  · exact_mod_cast dotP_nonneg vocab d1 d2
  · exact_mod_cast dotP_sq_le vocab d1 d2 hn

theorem vocabulary_nodup (data : List Movie) : (vocabulary data).Nodup := by
  have h1 : (sortDesc (fun t => (corpusCount data t : ℚ)) (vocabularyFull data)).Nodup :=
    ((sortDesc_perm _ _).nodup_iff).mpr (List.nodup_dedup _)
  exact h1.sublist (List.take_sublist _ _)

theorem mem_vocabulary_of_small (data : List Movie)
    (hcap : (vocabularyFull data).length ≤ max_features) (t : String) :
    t ∈ vocabulary data ↔ t ∈ vocabularyFull data := by
  rw [vocabulary, List.take_of_length_le (by rw [length_sortDesc]; exact hcap)]
  exact (sortDesc_perm _ _).mem_iff

theorem list_sum_nonneg_eq_zero {l : List ℚ} (h0 : ∀ x ∈ l, 0 ≤ x)
    (hs : l.sum = 0) : ∀ x ∈ l, x = 0 := by
  induction l with
  | nil => simp
  | cons a l ih =>
    have ha : 0 ≤ a := h0 a (by simp)
    have hl : 0 ≤ l.sum := List.sum_nonneg (fun x hx => h0 x (by simp [hx]))
    rw [List.sum_cons] at hs
    have ha0 : a = 0 := le_antisymm (by linarith) ha
    intro x hx
    rcases List.mem_cons.mp hx with rfl | hx
    · exact ha0
    · exact ih (fun y hy => h0 y (by simp [hy])) (by linarith) x hx

theorem dotP_cross_zero (vocab d1 d2 : List String)
    (h : dotP vocab d1 d1 = 0) : dotP vocab d1 d2 = 0 := by
  have hterms : ∀ t ∈ vocab, tf d1 t = 0 := by
    intro t ht
    have hz := list_sum_nonneg_eq_zero (l := vocab.map (fun u => tf d1 u * tf d1 u))
      (fun x hx => by
        rcases List.mem_map.mp hx with ⟨u, _, rfl⟩
        exact mul_nonneg (tf_nonneg d1 u) (tf_nonneg d1 u)) h
      (tf d1 t * tf d1 t) (List.mem_map_of_mem _ ht)
    exact mul_self_eq_zero.mp hz
  refine List.sum_eq_zero ?_
  intro x hx
  rcases List.mem_map.mp hx with ⟨u, hu, rfl⟩
  rw [hterms u hu, zero_mul]

theorem cosineSim_le_one_total (vocab d1 d2 : List String) (hn : vocab.Nodup) :
    cosineSim vocab d1 d2 ≤ 1 := by
  by_cases h1 : dotP vocab d1 d1 = 0
  · have h12 : dotP vocab d1 d2 = 0 := dotP_cross_zero vocab d1 d2 h1
    unfold cosineSim
    rw [h12]
    simp
  · by_cases h2 : dotP vocab d2 d2 = 0
    · have h21 : dotP vocab d2 d1 = 0 := dotP_cross_zero vocab d2 d1 h2
      unfold cosineSim
      rw [dotP_comm vocab d1 d2, h21]
      simp
    · exact cosineSim_le_one vocab d1 d2 hn
        (lt_of_le_of_ne (dotP_nonneg vocab d1 d1) (Ne.symm h1))
        (lt_of_le_of_ne (dotP_nonneg vocab d2 d2) (Ne.symm h2))

theorem content_dotP_pos (data : List Movie) (i : Nat)
    (hi : i < (filteredData data).length)
    (hcap : (vocabularyFull data).length ≤ max_features) :
    0 < dotP (vocabulary data)
      (create_content_string ((filteredData data).getD i default))
      (create_content_string ((filteredData data).getD i default)) := by
  have hmem : (filteredData data).getD i default ∈ filteredData data := by
    rw [List.getD_eq_getElem _ _ hi]
    exact List.getElem_mem hi
  have hne : create_content_string ((filteredData data).getD i default) ≠ [] := by
    have := (List.mem_filter.mp hmem).2
    simpa using this
  obtain ⟨t, ht⟩ : ∃ t, t ∈ create_content_string ((filteredData data).getD i default) := by
    cases hc : create_content_string ((filteredData data).getD i default) with
    | nil => exact absurd hc hne
    | cons t ts => exact ⟨t, by simp [hc]⟩
  have htv : t ∈ vocabulary data := by
    refine (mem_vocabulary_of_small data hcap t).mpr ?_
    rw [vocabularyFull, List.mem_dedup, List.mem_flatten]
    exact ⟨create_content_string ((filteredData data).getD i default),
      List.mem_map_of_mem _ hmem, ht⟩
  exact dotP_self_pos _ _ t htv ht

/-! The `max_features` cut on the corpus `bigData` with 5001 distinct
tokens. -/

theorem tok_data (i : Nat) : (tok i).data = List.replicate (i + 1) 'a' := rfl

theorem tok_inj : Function.Injective tok := by
  intro i j h
  have h2 : i + 1 = j + 1 := by
    have := congrArg (fun s => s.data.length) h
    simpa [tok] using this
  omega

theorem tok_head (i : Nat) : (tok i).data.head? = some 'a' := by
  rw [tok]
  simp [List.replicate_succ]

theorem tok_ne_of_head (i : Nat) (s : String) (hs : s.data.head? ≠ some 'a') :
    tok i ≠ s := by
  intro h
  exact hs (h ▸ tok_head i)

theorem mem_capTokens {t : String} : t ∈ capTokens ↔ ∃ i, i < 5000 ∧ tok i = t := by
  simp [capTokens, List.mem_map, List.mem_range]

theorem splitTokens_nows (cs : List Char) (h : ∀ c ∈ cs, c.isWhitespace = false) :
    ∀ (rest acc : List Char),
      splitTokens (cs ++ rest) acc = splitTokens rest (cs.reverse ++ acc) := by
  induction cs with
  | nil => intro rest acc; simp
  | cons c cs ih =>
    intro rest acc
    have hc : c.isWhitespace = false := h c (by simp)
    rw [List.cons_append, splitTokens, if_neg (by simp [hc])]
    rw [ih (fun d hd => h d (by simp [hd])) rest (c :: acc)]
    simp

theorem splitTokens_space (rest acc : List Char) (h : acc ≠ []) :
    splitTokens (' ' :: rest) acc = String.mk acc.reverse :: splitTokens rest [] := by
  rw [splitTokens, if_pos (by decide), if_neg h]
  simp

theorem splitTokens_nil_acc (acc : List Char) (h : acc ≠ []) :
    splitTokens [] acc = [String.mk acc.reverse] := by
  rw [splitTokens, if_neg h]

theorem splitTokens_sepJoin : ∀ css : List (List Char),
    (∀ cs ∈ css, cs ≠ [] ∧ ∀ c ∈ cs, c.isWhitespace = false) →
    splitTokens (sepJoin css) [] = css.map String.mk := by
  intro css
  induction css with
  | nil => intro h; rfl
  | cons cs css ih =>
    intro h
    rcases h cs (by simp) with ⟨hne, hnows⟩
    cases css with
    | nil =>
      rw [show sepJoin [cs] = cs from rfl, ← List.append_nil cs,
        splitTokens_nows cs hnows [] [], List.append_nil,
        splitTokens_nil_acc _ (by simpa using hne)]
      simp
    | cons cs2 css2 =>
      rw [show sepJoin (cs :: cs2 :: css2) = cs ++ ' ' :: sepJoin (cs2 :: css2) from rfl,
        splitTokens_nows cs hnows _ [], List.append_nil,
        splitTokens_space _ _ (by simpa using hne), List.reverse_reverse,
        ih (fun d hd => h d (by simp [hd]))]
      rfl

theorem pySplit_bigGenres : pySplit bigGenres = capTokens := by
  rw [pySplit]
  unfold bigGenres
  dsimp only
  unfold bigChars
  rw [splitTokens_sepJoin]
  · rw [List.map_map]
    have hid : (String.mk ∘ String.data) = id := funext fun s => rfl
    rw [hid, List.map_id]
  · intro cs hcs
    rcases List.mem_map.mp hcs with ⟨t, ht, rfl⟩
    rcases mem_capTokens.mp ht with ⟨i, _, rfl⟩
    constructor
    · rw [tok_data]
      simp
    · intro c hc
      rw [tok_data] at hc
      rw [List.eq_of_mem_replicate hc]
      decide

theorem pyLower_tok (i : Nat) : pyLower (tok i) = tok i := by
  have ha : Char.toLower 'a' = 'a' := by decide
  rw [pyLower, tok]
  simp [List.map_replicate, ha]

theorem theme_mapping_tok (i : Nat) : theme_mapping (tok i) = [] := by
  have h := tok_head i
  unfold theme_mapping
  split
  all_goals first
    | rfl
    | (rename_i heq; rw [heq] at h; simp at h)

theorem content_movieBig : create_content_string movieBig = capTokens := by
  have h1 : (pySplit bigGenres).map pyLower = capTokens := by
    rw [pySplit_bigGenres]
    have hmap : ∀ t ∈ capTokens, pyLower t = t := by
      intro t ht
      rcases mem_capTokens.mp ht with ⟨i, _, rfl⟩
      exact pyLower_tok i
    rw [List.map_congr_left hmap]
    simp
  have h2 : (pySplit bigGenres).flatMap theme_mapping = [] := by
    rw [pySplit_bigGenres, List.flatMap_eq_nil_iff]
    intro t ht
    rcases mem_capTokens.mp ht with ⟨i, _, rfl⟩
    exact theme_mapping_tok i
  simp only [create_content_string, movieBig]
  rw [h1, h2]
  simp

theorem content_movieZ : create_content_string movieZ = ["zzz"] := by decide

theorem filteredData_bigData : filteredData bigData = [movieBig, movieBig, movieZ] := by
  have hB : create_content_string movieBig ≠ [] := by
    rw [content_movieBig]
    intro h
    have h0 : (5000 : Nat) = 0 := by simpa [capTokens] using congrArg List.length h
    omega
  have hZ : create_content_string movieZ ≠ [] := by
    rw [content_movieZ]
    simp
  simp [filteredData, bigData, List.filter_cons, hB, hZ]

theorem vocabularyFull_bigData_mem (t : String) :
    t ∈ vocabularyFull bigData ↔ t ∈ capTokens ∨ t = "zzz" := by
  rw [vocabularyFull, filteredData_bigData, List.mem_dedup]
  rw [show ([movieBig, movieBig, movieZ].map create_content_string).flatten
      = create_content_string movieBig ++ (create_content_string movieBig ++
        (create_content_string movieZ ++ [])) from rfl]
  simp only [content_movieBig, content_movieZ, List.append_nil, List.mem_append,
    List.mem_singleton]
  exact ⟨fun h => h.elim Or.inl id, fun h => Or.inr h⟩

theorem vocabularyFull_bigData_length : (vocabularyFull bigData).length = 5001 := by
  rw [vocabularyFull, filteredData_bigData, ← List.card_toFinset]
  have hset : (([movieBig, movieBig, movieZ].map create_content_string).flatten).toFinset
      = insert "zzz" ((Finset.range 5000).image tok) := by
    ext t
    simp only [List.mem_toFinset, Finset.mem_insert, Finset.mem_image, Finset.mem_range]
    rw [show ([movieBig, movieBig, movieZ].map create_content_string).flatten
        = create_content_string movieBig ++ (create_content_string movieBig ++
          (create_content_string movieZ ++ [])) from rfl]
    simp only [content_movieBig, content_movieZ, List.append_nil, List.mem_append,
      List.mem_singleton, mem_capTokens]
    exact ⟨fun h => h.elim Or.inr (fun h2 => h2.elim Or.inr Or.inl),
      fun h => h.elim (fun b => Or.inr (Or.inr b)) (fun a => Or.inl a)⟩
  rw [hset, Finset.card_insert_of_not_mem, Finset.card_image_of_injective _ tok_inj,
    Finset.card_range]
  intro hmem
  rcases Finset.mem_image.mp hmem with ⟨i, _, hEq⟩
  exact tok_ne_of_head i "zzz" (by decide) hEq

theorem count_capTokens_tok (i : Nat) (hi : i < 5000) :
    capTokens.count (tok i) = 1 := by
  rw [capTokens, List.count_map_of_injective _ tok tok_inj]
  exact List.count_eq_one_of_mem (List.nodup_range 5000) (List.mem_range.mpr hi)

theorem count_capTokens_zzz : capTokens.count "zzz" = 0 := by
  rw [List.count_eq_zero]
  intro h
  rcases mem_capTokens.mp h with ⟨i, _, hEq⟩
  exact tok_ne_of_head i "zzz" (by decide) hEq

theorem corpusCount_bigData_tok (i : Nat) (hi : i < 5000) :
    corpusCount bigData (tok i) = 2 := by
  rw [corpusCount, filteredData_bigData]
  have hz : (["zzz"] : List String).count (tok i) = 0 := by
    rw [List.count_eq_zero, List.mem_singleton]
    exact tok_ne_of_head i "zzz" (by decide)
  simp [content_movieBig, content_movieZ, count_capTokens_tok i hi, hz]

theorem corpusCount_bigData_zzz : corpusCount bigData "zzz" = 1 := by
  rw [corpusCount, filteredData_bigData]
  simp [content_movieBig, content_movieZ, count_capTokens_zzz]

theorem zzz_not_mem_vocabulary : "zzz" ∉ vocabulary bigData := by
  have hkey : ∀ S : List String,
      S = sortDesc (fun t => (corpusCount bigData t : ℚ)) (vocabularyFull bigData) →
      "zzz" ∉ S.take max_features := by
    intro S hSdef hmem
    have hlenS : S.length = 5001 := by
      rw [hSdef, length_sortDesc, vocabularyFull_bigData_length]
    have hsorted : S.Pairwise (fun a b => (corpusCount bigData b : ℚ) ≤
        (corpusCount bigData a : ℚ)) := by
      rw [hSdef]
      exact sortDesc_sorted _ _
    have hperm : List.Perm S (vocabularyFull bigData) := by
      rw [hSdef]
      exact sortDesc_perm _ _
    rcases List.mem_iff_getElem.mp hmem with ⟨i, hilt, hEq⟩
    have hi5000 : i < 5000 := by
      rw [List.length_take, hlenS] at hilt
      simp only [max_features] at hilt
      omega
    have h5000lt : 5000 < S.length := by
      rw [hlenS]
      omega
    have hiS : i < S.length := by omega
    have hSi : S[i] = "zzz" := by
      rw [← hEq]
      exact (List.getElem_take _).symm
    have hpair := (List.pairwise_iff_getElem.mp hsorted) i 5000 (by omega) h5000lt
      (by omega)
    have hmem5000 : S[5000] ∈ vocabularyFull bigData :=
      hperm.mem_iff.mp (List.getElem_mem h5000lt)
    rcases (vocabularyFull_bigData_mem _).mp hmem5000 with hcap | hzz
    · rcases mem_capTokens.mp hcap with ⟨k, hk, hEq2⟩
      rw [hSi, ← hEq2] at hpair
      simp only [corpusCount_bigData_zzz, corpusCount_bigData_tok k hk] at hpair
      norm_num at hpair
    · have hnodupS : S.Nodup := (hperm.nodup_iff).mpr (List.nodup_dedup _)
      have : i = 5000 := (List.Nodup.getElem_inj_iff hnodupS).mp (by rw [hSi, hzz])
      omega
  intro hmem
  refine hkey _ rfl ?_
  rw [vocabulary] at hmem
  exact hmem

theorem similarity_bigData_diag_zero : similarityMatrix bigData 2 2 = 0 := by
  have hget : (filteredData bigData).getD 2 default = movieZ := by
    rw [filteredData_bigData]
    rfl
  rw [similarityMatrix, hget, content_movieZ]
  have hdot : dotP (vocabulary bigData) ["zzz"] ["zzz"] = 0 := by
    rw [dotP]
    refine List.sum_eq_zero ?_
    intro x hx
    rcases List.mem_map.mp hx with ⟨t, htv, rfl⟩
    have hne : t ≠ "zzz" := fun h => zzz_not_mem_vocabulary (h ▸ htv)
    have hz : tf ["zzz"] t = 0 := by
      have hcount : List.count t ["zzz"] = 0 := by
        rw [List.count_eq_zero, List.mem_singleton]
        exact hne
      rw [tf, hcount]
      norm_num
    rw [hz, zero_mul]
  unfold cosineSim
  rw [hdot]
  simp

/-! Claim theorems. -/

/-- C8: each bonus term of the adjusted score is monotone and bounded —
the rating bonus is 0 for rating ≤ 5, strictly increasing above 5 and at
most 0.2 on [0,10]; the popularity bonus is non-decreasing in vote count
and capped at 0.15; the era bonus is non-decreasing in the year distance,
capped at 0.2, and the cap is reached at a 40-year difference. -/
theorem C8_bonus_monotone_bounded :
    (∀ r : ℚ, r ≤ 5 → rating_bonus r = 0) ∧
    (∀ r1 r2 : ℚ, 5 < r1 → r1 < r2 → rating_bonus r1 < rating_bonus r2) ∧
    (∀ r : ℚ, 0 ≤ r → r ≤ 10 → rating_bonus r ≤ 0.2) ∧
    (∀ v1 v2 : Int, v1 ≤ v2 → popularity_bonus v1 ≤ popularity_bonus v2) ∧
    (∀ v : Int, popularity_bonus v ≤ 0.15) ∧
    (∀ d1 d2 : Int, d1 ≤ d2 → era_bonus d1 ≤ era_bonus d2) ∧
    (∀ d : Int, era_bonus d ≤ 0.2) ∧
    era_bonus 40 = 0.2 := by
  refine ⟨?_, ?_, ?_, ?_, ?_, ?_, ?_, ?_⟩
  · intro r h
    simp [rating_bonus, not_lt.mpr h]
  · intro r1 r2 h1 h2
    rw [rating_bonus, if_pos (show r1 > 5 by linarith),
      rating_bonus, if_pos (show r2 > 5 by linarith)]
    nlinarith
  · intro r h0 h10
    rw [rating_bonus]
    split_ifs with h
    · nlinarith
    · norm_num
  · intro v1 v2 h
    unfold popularity_bonus
    refine min_le_min le_rfl ?_
    have : (v1 : ℚ) ≤ (v2 : ℚ) := by exact_mod_cast h
    exact (div_le_div_iff_of_pos_right (by norm_num)).mpr this
  · intro v
    exact min_le_left _ _
  · intro d1 d2 h
    unfold era_bonus
    refine min_le_min le_rfl ?_
    have : (d1 : ℚ) ≤ (d2 : ℚ) := by exact_mod_cast h
    exact (div_le_div_iff_of_pos_right (by norm_num)).mpr this
  · intro d
    exact min_le_left _ _
  · rw [era_bonus]
    norm_num

/-- Witness for C8 at concrete inputs: rating 4 gets no bonus, any vote
count stays below the popularity cap, and a 40-year distance attains the
era cap. -/
theorem C8_bonus_monotone_bounded_witness :
    rating_bonus 4 = 0 ∧ rating_bonus 6 < rating_bonus 7 ∧
      popularity_bonus 123456 ≤ popularity_bonus 999999 ∧
      era_bonus 40 = 0.2 :=
  ⟨C8_bonus_monotone_bounded.1 4 (by norm_num),
   C8_bonus_monotone_bounded.2.1 6 7 (by norm_num) (by norm_num),
   C8_bonus_monotone_bounded.2.2.2.1 123456 999999 (by norm_num),
   C8_bonus_monotone_bounded.2.2.2.2.2.2.2⟩

/-- C10: throughout the candidate-scoring loop the `recommendations` list
stays empty, so the lines 244-246 genre-similarity guard compares
`0 ≥ max_recommendations // 2`: for `max_recommendations ≥ 2` the loop
equals the guard-free loop (no candidate is ever excluded by it), and for
`max_recommendations ≤ 1` it equals the loop that skips every candidate
whose genre set equals the source's. -/
theorem C10_guard_inert_or_total (data : List Movie) (mi : Nat)
    (sg : Finset String) (sy : Int) (mr : Nat) :
    (∀ (pairs : List (Nat × ℚ)) (st st2 : LoopState), st.recommendations = [] →
      scoreLoop data mi sg sy mr pairs st = Except.ok st2 →
      st2.recommendations = []) ∧
    (2 ≤ mr → ∀ (pairs : List (Nat × ℚ)) (st : LoopState), st.recommendations = [] →
      scoreLoop data mi sg sy mr pairs st = scoreLoopUnguarded data mi sg sy pairs st) ∧
    (mr ≤ 1 → ∀ (pairs : List (Nat × ℚ)) (st : LoopState), st.recommendations = [] →
      scoreLoop data mi sg sy mr pairs st = scoreLoopSkipEqual data mi sg sy pairs st) := by
  refine ⟨?_, ?_, ?_⟩
  · intro pairs st st2 hst h
    exact ((scoreLoop_fixed data mi sg sy mr pairs st st2 h).1).trans hst
  · intro h2 pairs st hst
    exact scoreLoop_eq_unguarded data mi sg sy mr h2 pairs st hst
  · intro h1 pairs st hst
    exact scoreLoop_eq_skipEqual data mi sg sy mr h1 pairs st hst

/-- Witness for C10 on a concrete corpus and similarity row, at the
default `max_recommendations = 10` and at `max_recommendations = 1`. -/
theorem C10_guard_inert_or_total_witness :
    scoreLoop dataAct 0 (genreSet (some "Action")) 2000 10 [(0, 1), (1, 0.9)] initState =
      scoreLoopUnguarded dataAct 0 (genreSet (some "Action")) 2000 [(0, 1), (1, 0.9)] initState ∧
    scoreLoop dataAct 0 (genreSet (some "Action")) 2000 1 [(0, 1), (1, 0.9)] initState =
      scoreLoopSkipEqual dataAct 0 (genreSet (some "Action")) 2000 [(0, 1), (1, 0.9)] initState :=
  ⟨(C10_guard_inert_or_total dataAct 0 (genreSet (some "Action")) 2000 10).2.1
      (by norm_num) [(0, 1), (1, 0.9)] initState rfl,
   (C10_guard_inert_or_total dataAct 0 (genreSet (some "Action")) 2000 1).2.2
      (by norm_num) [(0, 1), (1, 0.9)] initState rfl⟩

/-- C9 counterexample: with a one-row corpus and an empty similarity
matrix, the resolved title's row lookup fails inside the engine
(`IndexError`-class), yet `get_recommendations` and `find_similar_movies`
return the empty list — the internal error is converted into the normal
empty-result outcome instead of propagating. -/
theorem C9_error_swallowed :
    get_recommendations_impl eqScorer "B" dataOne [] 70 10 =
      Except.error "index out of range" ∧
    get_recommendations eqScorer "B" dataOne [] 70 10 = [] ∧
    find_similar_movies eqScorer "B" dataOne [] 10 = [] :=
  ⟨rfl, rfl, rfl⟩

/-- C9 (amended): every internal error of the recommendation body —
including out-of-range index lookups — is caught by the blanket handler of
`get_recommendations` (lines 302-304) and turned into the empty result;
`find_similar_movies` then also returns the empty list. -/
theorem C9_amended_errors_become_empty (scorer : String → String → Nat)
    (title : String) (data : List Movie) (sim : List (List ℚ))
    (min_sim max_rec : Nat) (e : String)
    (h : get_recommendations_impl scorer title data sim min_sim max_rec =
      Except.error e) :
    get_recommendations scorer title data sim min_sim max_rec = [] ∧
    (min_sim = 70 → find_similar_movies scorer title data sim max_rec = []) := by
  constructor
  · simp [get_recommendations, h]
  · rintro rfl
    simp [find_similar_movies, get_recommendations, h]

/-- Witness for the amended C9 at the concrete failing input. -/
theorem C9_amended_errors_become_empty_witness :
    get_recommendations eqScorer "B" dataOne [] 70 10 = [] ∧
    find_similar_movies eqScorer "B" dataOne [] 10 = [] := by
  have h := C9_amended_errors_become_empty eqScorer "B" dataOne [] 70 10
    "index out of range" rfl
  exact ⟨h.1, h.2 rfl⟩

/-- C5: with the default threshold `min_similarity = 70`,
`get_recommendations` returns the empty list (and raises nothing — the one
internal `ValueError` for a blank title is caught by its own handler) when
the query is empty or whitespace-only, when the corpus has no candidate
titles, or when the best fuzzy match scores strictly below 70. -/
theorem C5_resolution_misses_empty (scorer : String → String → Nat)
    (title : String) (data : List Movie) (sim : List (List ℚ)) (max_rec : Nat) :
    (pyStripEmpty title = true →
      get_recommendations scorer title data sim 70 max_rec = []) ∧
    (data = [] → get_recommendations scorer title data sim 70 max_rec = []) ∧
    (∀ mt sc, extractOne scorer title (titleKeys data) = some (mt, sc) → sc < 70 →
      get_recommendations scorer title data sim 70 max_rec = []) := by
  refine ⟨?_, ?_, ?_⟩
  · intro h
    simp [get_recommendations, get_recommendations_impl, h]
  · rintro rfl
    by_cases h : pyStripEmpty title = true
    · simp [get_recommendations, get_recommendations_impl, h]
    · simp [get_recommendations, get_recommendations_impl, h, titleKeys, pyKeys,
        extractOne]
  · intro mt sc hres hlt
    by_cases h : pyStripEmpty title = true
    · simp [get_recommendations, get_recommendations_impl, h]
    · simp [get_recommendations, get_recommendations_impl, h, hres, hlt]

/-- Witness for C5: a whitespace query, an empty corpus, and a best match
scoring 0 < 70 all yield the empty result. -/
theorem C5_resolution_misses_empty_witness :
    get_recommendations eqScorer "  " dataOne [] 70 10 = [] ∧
    get_recommendations eqScorer "B" [] [] 70 10 = [] ∧
    get_recommendations eqScorer "Q" dataOne [] 70 10 = [] :=
  ⟨(C5_resolution_misses_empty eqScorer "  " dataOne [] 10).1 (by decide),
   (C5_resolution_misses_empty eqScorer "B" [] [] 10).2.1 rfl,
   (C5_resolution_misses_empty eqScorer "Q" dataOne [] 10).2.2 "B" 0 (by decide)
     (by decide)⟩

/-- C1: the title-level deduplication never happens — `seen_titles` is
initialised on line 227 but nothing is ever added to it, so the line-238
membership test never fires.  On the corpus `dataDup`, whose rows 0 and 1
both carry the title "A", the query "B" returns two recommendations with
the same title. -/
theorem C1_duplicate_titles_emitted :
    (get_recommendations eqScorer "B" dataDup simDup 70 10).map (fun r => r.title) =
      ["A", "A"] := by
  norm_num +decide [get_recommendations, get_recommendations_impl, recommendCore,
    scoreLoop, scoreCandidate, extractOne, titleKeys, pyKeys, titleToIndex, genreSet,
    genreList, pySplit, splitTokens, pyStripEmpty, eqScorer, dataDup, simDup, initState,
    dictGet, dictIncr, rating_bonus, popularity_bonus, era_bonus, sortDesc, insertDesc,
    List.enum, List.enumFrom, List.foldl]

/-- C2: the genre-diversity bonus never shrinks as recommendations
accumulate — `seen_genres` is initialised on line 225 but never updated,
so every candidate receives `0.15 * |its genre set|`.  On the all-`Action`
corpus `dataAct`, candidate "C" is scored after "B" has already
contributed `Action`, yet its final score 0.38 still contains the full
weighted diversity term `1 * 0.15 * 0.2`; under the claimed semantics its
diversity bonus would be 0 and its score 0.35. -/
theorem C2_diversity_bonus_never_resets :
    (get_recommendations eqScorer "X" dataAct simAct 70 10).map
      (fun r => (r.title, r.similarity_score)) = [("B", 0.48), ("C", 0.38)] ∧
    (0.38 : ℚ) = 0.8 * 0.5 + (1 : ℚ) * 0.15 * 0.2 + 0 * 0.15 + 0 * 0.1 + 0 * 0.05 -
      1 * 0.05 := by
  constructor
  · norm_num +decide [get_recommendations, get_recommendations_impl, recommendCore,
      scoreLoop, scoreCandidate, extractOne, titleKeys, pyKeys, titleToIndex, genreSet,
      genreList, pySplit, splitTokens, pyStripEmpty, eqScorer, dataAct, simAct,
      initState, dictGet, dictIncr, rating_bonus, popularity_bonus, era_bonus,
      sortDesc, insertDesc, List.enum, List.enumFrom, List.foldl]
  · norm_num

/-- C3: on a resolved title the returned list is sorted by non-increasing
adjusted score, candidates with equal scores keep their original
corpus-index order (Python's sort is stable), and the result length is
`min max_recommendations (number of scored candidates)` — every candidate
is returned, unpadded, when fewer than `max_recommendations` exist. -/
theorem C3_sorted_stable_truncated (data : List Movie) (sim : List (List ℚ))
    (movie_idx max_rec : Nat) (src : Movie) (row : List ℚ) (st : LoopState)
    (recs : List Recom)
    (hsrc : data.get? movie_idx = some src)
    (hrow : sim.get? movie_idx = some row)
    (hloop : scoreLoop data movie_idx (genreSet src.genres) (src.year.getD 2024)
      max_rec row.enum initState = Except.ok st)
    (hcore : recommendCore data sim movie_idx max_rec = Except.ok recs) :
    recs.Pairwise (fun a b => b.similarity_score ≤ a.similarity_score) ∧
    recs.Pairwise (fun a b => a.similarity_score = b.similarity_score → a.idx < b.idx) ∧
    recs.length = min max_rec st.candidates.length := by
  have hrecs : recs =
      (sortDesc (fun r => r.similarity_score) st.candidates).take max_rec := by
    simp only [recommendCore, hsrc, hrow, hloop, Except.ok.injEq] at hcore
    exact hcore.symm
  have hpw : st.candidates.Pairwise (fun a b => a.idx < b.idx) := by
    have henum : scoreLoop data movie_idx (genreSet src.genres) (src.year.getD 2024)
        max_rec (List.enumFrom 0 row) initState = Except.ok st := hloop
    exact (scoreLoop_candidates_increasing data movie_idx (genreSet src.genres)
      (src.year.getD 2024) max_rec row 0 initState st henum (by simp [initState])
      (by simp [initState])).1
  subst hrecs
  refine ⟨?_, ?_, ?_⟩
  · exact (sortDesc_sorted _ _).sublist (List.take_sublist _ _)
  · exact (sortDesc_stable (fun r => r.similarity_score) (fun a b => a.idx < b.idx)
      st.candidates (hpw.imp (fun hab => fun _ => hab))).sublist (List.take_sublist _ _)
  · rw [List.length_take, length_sortDesc]

/-- Witness for C3 on a concrete one-row corpus: the loop sees only the
source index, so the candidate list is empty and the result is the empty,
trivially sorted list of length `min 10 0`. -/
theorem C3_sorted_stable_truncated_witness :
    ([] : List Recom).Pairwise
      (fun a b => b.similarity_score ≤ a.similarity_score) ∧
    ([] : List Recom).Pairwise
      (fun a b => a.similarity_score = b.similarity_score → a.idx < b.idx) ∧
    ([] : List Recom).length = min 10 initState.candidates.length :=
  C3_sorted_stable_truncated dataOne [[1]] 0 10 ⟨"B", some "Action", some 2000, none, none⟩
    [1] initState [] rfl rfl rfl rfl

/-- C7: whatever row the fuzzy resolver matched, no returned
recommendation carries the source row's own index — line 232 skips it
before scoring. -/
theorem C7_source_never_returned (scorer : String → String → Nat) (title : String)
    (data : List Movie) (sim : List (List ℚ)) (min_sim max_rec : Nat)
    (matched_title : String) (score : Nat) (recs : List Recom)
    (hres : extractOne scorer title (titleKeys data) = some (matched_title, score))
    (himpl : get_recommendations_impl scorer title data sim min_sim max_rec =
      Except.ok recs) :
    ∀ r ∈ recs, r.idx ≠ titleToIndex data matched_title := by
  by_cases hblank : pyStripEmpty title = true
  · simp only [get_recommendations_impl, hblank, if_true] at himpl
    exact absurd himpl (by simp)
  · simp only [get_recommendations_impl, hblank, Bool.false_eq_true, if_false, hres] at himpl
    by_cases hsc : score < min_sim
    · rw [if_pos hsc] at himpl
      cases himpl
      simp
    · rw [if_neg hsc] at himpl
      rw [recommendCore] at himpl
      cases hsrc : data.get? (titleToIndex data matched_title) with
      | none => rw [hsrc] at himpl; exact absurd himpl (by simp)
      | some src =>
        simp only [hsrc] at himpl
        cases hrow : sim.get? (titleToIndex data matched_title) with
        | none => rw [hrow] at himpl; exact absurd himpl (by simp)
        | some row =>
          simp only [hrow] at himpl
          cases hloop : scoreLoop data (titleToIndex data matched_title)
              (genreSet src.genres) (src.year.getD 2024) max_rec row.enum initState with
          | error e => rw [hloop] at himpl; exact absurd himpl (by simp)
          | ok st =>
            simp only [hloop, Except.ok.injEq] at himpl
            intro r hr
            have hmem : r ∈ st.candidates := by
              have h1 : r ∈ sortDesc (fun c => c.similarity_score) st.candidates :=
                (List.take_sublist _ _).subset (himpl ▸ hr)
              exact (sortDesc_perm (fun c => c.similarity_score) st.candidates).mem_iff.mp h1
            exact scoreLoop_candidates_ne data (titleToIndex data matched_title)
              (genreSet src.genres) (src.year.getD 2024) max_rec row.enum initState st
              hloop (by simp [initState]) r hmem

/-- Witness for C7 on the concrete corpus `dataAct`: the query "X"
resolves to row 0, and the first returned recommendation (row 1, "B")
does not carry the source index. -/
theorem C7_source_never_returned_witness :
    (⟨"B", 2000, {"Action"}, 0, 0.48, 1⟩ : Recom).idx ≠ titleToIndex dataAct "X" := by
  refine C7_source_never_returned eqScorer "X" dataAct simAct 70 10 "X" 100
    [⟨"B", 2000, {"Action"}, 0, 0.48, 1⟩, ⟨"C", 2000, {"Action"}, 0, 0.38, 2⟩]
    (by decide) ?_ _ (by simp)
  norm_num +decide [get_recommendations_impl, recommendCore, scoreLoop, scoreCandidate,
    extractOne, titleKeys, pyKeys, titleToIndex, genreSet, genreList, pySplit,
    splitTokens, pyStripEmpty, eqScorer, dataAct, simAct, initState, dictGet, dictIncr,
    rating_bonus, popularity_bonus, era_bonus, sortDesc, insertDesc, List.enum,
    List.enumFrom, List.foldl]

/-- C4 (amended): the similarity matrix is a square `N × N` array over the
filtered corpus; it is symmetric and every entry lies in [0, 1]
unconditionally, and whenever the corpus has at most `max_features = 5000`
distinct tokens — so the `CountVectorizer` cap is inactive — the diagonal
entries equal 1 exactly.  (Beyond the cap the diagonal clause fails: see
the counterexample on `bigData`.) -/
theorem C4_matrix_invariants (data : List Movie) (i j : Nat)
    (hi : i < (filteredData data).length) (_hj : j < (filteredData data).length) :
    (similarityRows data).length = (filteredData data).length ∧
    (∀ r ∈ similarityRows data, r.length = (filteredData data).length) ∧
    similarityMatrix data i j = similarityMatrix data j i ∧
    (0 ≤ similarityMatrix data i j ∧ similarityMatrix data i j ≤ 1) ∧
    ((vocabularyFull data).length ≤ max_features → similarityMatrix data i i = 1) := by
  have hnodup : (vocabulary data).Nodup := vocabulary_nodup data
  refine ⟨?_, ?_, ?_, ⟨?_, ?_⟩, ?_⟩
  · simp [similarityRows]
  · intro r hr
    rcases List.mem_map.mp hr with ⟨k, _, rfl⟩
    simp
  · exact cosineSim_comm _ _ _
  · exact cosineSim_nonneg _ _ _
  · exact cosineSim_le_one_total _ _ _ hnodup
  · intro hcap
    exact cosineSim_self _ _ (content_dotP_pos data i hi hcap)

/-- Witness for C4 on a concrete one-movie corpus, well below the
`max_features` cap: its diagonal entry is exactly 1 and its entries sit in
[0, 1]. -/
theorem C4_matrix_invariants_witness :
    (0 ≤ similarityMatrix dataAlpha 0 0 ∧ similarityMatrix dataAlpha 0 0 ≤ 1) ∧
      similarityMatrix dataAlpha 0 0 = 1 :=
  ⟨(C4_matrix_invariants dataAlpha 0 0 (by decide) (by decide)).2.2.2.1,
   (C4_matrix_invariants dataAlpha 0 0 (by decide) (by decide)).2.2.2.2 (by decide)⟩

/-- C4 counterexample: on the corpus `bigData` the filtered rows carry
5001 distinct tokens, so the `max_features = 5000` cut is active; it drops
the uniquely least-frequent token "zzz", the count vector of the surviving
third row (`movieZ`, whose only token is "zzz") is zero over the capped
vocabulary, and that row's diagonal similarity entry is 0, not 1 — the
claim's universal `M[i][i] = 1.0` invariant fails in the program. -/
theorem C4_cap_zero_diagonal :
    (vocabularyFull bigData).length = 5001 ∧
    2 < (filteredData bigData).length ∧
    similarityMatrix bigData 2 2 = 0 := by
  refine ⟨vocabularyFull_bigData_length, ?_, similarity_bigData_diag_zero⟩
  rw [filteredData_bigData]
  norm_num

/-- C6: `create_similarity_matrix` works on the corpus with the
empty-content rows dropped, and it fails — producing an error and no
matrices — exactly when that filtered corpus is empty or the extracted
vocabulary is empty; on success it returns the filtered corpus with the
cosine matrix. -/
theorem C6_build_fails_iff (data : List Movie) :
    (∀ m : Movie, m ∈ filteredData data ↔ (m ∈ data ∧ create_content_string m ≠ [])) ∧
    ((∃ e, create_similarity_matrix data = Except.error e) ↔
      (filteredData data = [] ∨ vocabulary data = [])) ∧
    (∀ pd M, create_similarity_matrix data = Except.ok (pd, M) →
      pd = filteredData data ∧ M = similarityMatrix data) := by
  refine ⟨?_, ?_, ?_⟩
  · intro m
    simp [filteredData, List.mem_filter]
  · constructor
    · rintro ⟨e, he⟩
      rw [create_similarity_matrix] at he
      by_cases h1 : filteredData data = []
      · exact Or.inl h1
      · rw [if_neg h1] at he
        by_cases h2 : vocabulary data = []
        · exact Or.inr h2
        · rw [if_neg h2] at he
          exact absurd he (by simp)
    · intro h
      rw [create_similarity_matrix]
      by_cases h1 : filteredData data = []
      · exact ⟨_, by rw [if_pos h1]⟩
      · rcases h with h | h2
        · exact absurd h h1
        · exact ⟨_, by rw [if_neg h1, if_pos h2]⟩
  · intro pd M h
    rw [create_similarity_matrix] at h
    by_cases h1 : filteredData data = []
    · rw [if_pos h1] at h
      exact absurd h (by simp)
    · rw [if_neg h1] at h
      by_cases h2 : vocabulary data = []
      · rw [if_pos h2] at h
        exact absurd h (by simp)
      · rw [if_neg h2] at h
        injection h with h3
        injection h3 with ha hb
        exact ⟨ha.symm, hb.symm⟩

/-- Witness for C6 on the concrete one-movie corpus `dataAlpha`, whose
build succeeds and returns the filtered corpus with the cosine matrix. -/
theorem C6_build_fails_iff_witness :
    filteredData dataAlpha = filteredData dataAlpha ∧
      similarityMatrix dataAlpha = similarityMatrix dataAlpha :=
  (C6_build_fails_iff dataAlpha).2.2 (filteredData dataAlpha)
    (similarityMatrix dataAlpha) rfl

end MovieRec
